import Mathlib

/-!
# gcp-nuke: the teardown scheduler and the driver poll loops

A shallow embedding of

* `apiErrorCheck` and `parallelResourceDeletion` (`main.go`),
* the per-bucket task of `StorageBuckets.Remove` (`gcp/storage_buckets.go`),
* the per-instance task of `SQLInstances.Remove` (`gcp/sql_instances.go`).

Conventions of the embedding:

* a Go `error` is an `Option String`: `none` is `nil`, `some msg` is an error
  whose `Error()` text is `msg`;
* Go `int` values (`Timeout`, `PollTime`, `seconds`) are signed integers; in
  `main.go` the statement `seconds += pollTime` wraps around at 2^63 as a 64-bit
  Go `int` does (`goInt`). The two driver loops are written without the wrap:
  what is stated about them is either a run at small concrete values or a run
  with `0 <= PollTime` in which `seconds` stays between 0 and `Timeout`;
* the remote world is deterministic but arbitrary: a driver method answers as a
  function of the whole history of calls made so far, and every call the
  scheduler makes is appended to that history, so the history is at the same
  time the program state and the observable trace;
* `log` output is not part of the trace, but the `List(false)` calls that build
  a log line are;
* a loop that the source does not bound structurally takes a fuel argument,
  one unit per evaluation of the loop head; `none` means the fuel ran out.
-/

namespace GcpNuke

/-! ## Strings and formatting -/

/-- Go error value: `none` is `nil`, `some msg` has `Error() = msg`. -/
abbrev GoError := Option String

/-- Slice of strings (`[]string`). -/
abbrev Strings := List String

/-- Library function `strings.Contains(s, substr)`: `substr` occurs in `s` as a contiguous run. -/
def stringsContains (s substr : String) : Bool :=
  decide (substr.data <:+: s.data)

/-- Verb `%v` applied to an `int`. -/
def fmtInt (n : Int) : String := toString n

/-- Verb `%v` applied to a `[]string`: the elements separated by blanks, in brackets. -/
def fmtStrings (xs : Strings) : String := "[" ++ " ".intercalate xs ++ "]"

/-- Method `err.Error()`; the scheduler only calls it on a non-nil error. -/
def GoError.Error (err : GoError) : String := err.getD ""

/-- Value that a 64-bit Go `int` holds after an arithmetic result `x`: `x`
reduced modulo 2^64 into the range from -2^63 to 2^63 - 1. -/
def goInt (x : Int) : Int :=
  (x + 9223372036854775808) % 18446744073709551616 - 9223372036854775808

/-! ## Configuration and the driver interface -/

/-- Fields of `config.Config` that the scheduler and the poll loops read. -/
structure Config where
  Project : String
  DryRun : Bool
  Timeout : Int
  PollTime : Int

/-- One observable interaction, with the answer it got. The event `sleep n`
is the call `time.Sleep(time.Duration(n) * time.Second)`. -/
inductive Event where
  | list (name : String) (refreshCache : Bool) (items : Strings)
  | remove (name : String) (err : GoError)
  | sleep (seconds : Int)
  deriving DecidableEq, Repr

/-- An interaction without its answer. -/
inductive Call where
  | list (name : String) (refreshCache : Bool)
  | remove (name : String)
  | sleep (seconds : Int)
  deriving DecidableEq, Repr

/-- Forget the answer of an event. -/
def Event.call : Event → Call
  | .list name refreshCache _ => .list name refreshCache
  | .remove name _ => .remove name
  | .sleep seconds => .sleep seconds

/-- Chronological list of everything that happened so far. -/
abbrev History := List Event

/-- Interface `gcp.Resource` as the scheduler uses it. `Name()` and
`Dependencies()` are constants (as in every driver); `List` and `Remove` talk to
the remote world and answer as a function of the history so far. -/
structure Resource where
  Name : String
  Dependencies : Strings
  Remove : History → GoError
  List : Bool → History → Strings

/-- Number of `Remove()` calls recorded in a history. -/
def removeCalls (h : History) : Nat :=
  h.countP fun e => match e with
    | .remove _ _ => true
    | _ => false

/-- Answer of the most recent `Remove()` call recorded in a history. -/
def lastRemoveError (h : History) : Option GoError :=
  h.foldl (fun acc e => match e with
    | .remove _ err => some err
    | _ => acc) none

/-- Answer of the most recent `List(true)` on the driver called `name`. -/
def latestRefresh (name : String) (h : History) : Option Strings :=
  h.foldl (fun acc e => match e with
    | .list n true items => if n = name then some items else acc
    | _ => acc) none

/-! ## `main.go` -/

/-- Function `apiErrorCheck` (main.go 126-142). -/
def apiErrorCheck (err : GoError) : Bool :=
  match err with
  | none => false
  | some msg =>
    let errorDescriptors := [
      "resourceInUseByAnotherResource",
      "resourceNotReady",
      "googleapi: Error 404"]
    errorDescriptors.any fun errorDesc => stringsContains msg errorDesc

/-- Text of the error of main.go 81. -/
def dependencyTimeoutText (name dependencyResourceName : String) (timeOut : Int) : String :=
  "[Error] Resource " ++ name ++ " timed out whilst waiting for dependency " ++
    dependencyResourceName ++ " to delete. (" ++ fmtInt timeOut ++ " seconds)"

/-- Text of the error of main.go 107. -/
def deleteTimeoutText (name : String) (timeOut : Int) (errText : String) : String :=
  "[Error] Resource " ++ name ++ " timed out whilst trying to delete. (" ++ fmtInt timeOut ++
    " seconds). Details of error below:\n " ++ errText

/-- Text of the error of main.go 118. -/
def detailedErrorText (name : String) (items : Strings) (errText : String) : String :=
  "[Error] Resource: " ++ name ++ ". Items: " ++ fmtStrings items ++
    ". Details of error below:\n " ++ errText

/-- How the dependency loop (main.go 79-92) is left, with the value of `seconds`
at that moment: normally (the range is exhausted or `break` is reached), by the
`return` of line 81, or by a panic. -/
inductive DepWait where
  | proceed (refreshCache : Bool) (seconds : Int)
  | timedOut (dependencyResourceName : String) (seconds : Int)
  | panicked (seconds : Int)
  deriving DecidableEq, Repr

/-- The loop `for _, dependencyResourceName := range resource.Dependencies()`
(main.go 79-92) over the dependency names still to visit, with the current values
of `refreshCache` and `seconds`. A name that is not a key of `resourceMap` gives
the nil interface, and the method call on it panics. -/
def waitForDependencies (resourceMap : String → Option Resource) (config : Config) :
    Strings → Bool → Int → History → DepWait × History
  | [], refreshCache, seconds, h => (.proceed refreshCache seconds, h)
  | dependencyResourceName :: rest, refreshCache, seconds, h =>
    if seconds > config.Timeout then
      (.timedOut dependencyResourceName seconds, h)
    else
      match resourceMap dependencyResourceName with
      | none => (.panicked seconds, h)
      | some dependencyResource =>
        let items := dependencyResource.List true h
        let h := h ++ [.list dependencyResource.Name true items]
        if items.length ≠ 0 then
          waitForDependencies resourceMap config rest true (goInt (seconds + config.PollTime))
            (h ++ [.sleep config.PollTime])
        else
          (.proceed refreshCache seconds, h)

/-- How the retry loop (main.go 103-114) is left. -/
inductive RetryExit where
  | timedOut (text : String)
  | done (err : GoError)
  deriving DecidableEq, Repr

/-- The loop `for apiErrorCheck(err)` (main.go 103-114) with the current values
of `err` and `seconds`. -/
def retryLoop (resource : Resource) (config : Config) :
    Nat → GoError → Int → History → Option (RetryExit × Int × History)
  | 0, _, _, _ => none
  | fuel + 1, err, seconds, h =>
    if apiErrorCheck err then
      let h := h ++ [.list resource.Name true (resource.List true h)]
      if seconds > config.Timeout then
        some (.timedOut (deleteTimeoutText resource.Name config.Timeout err.Error), seconds, h)
      else
        let h := h ++ [.list resource.Name false (resource.List false h)]
        let h := h ++ [.sleep config.PollTime]
        let seconds := goInt (seconds + config.PollTime)
        let err := resource.Remove h
        retryLoop resource config fuel err seconds (h ++ [.remove resource.Name err])
    else
      some (.done err, seconds, h)

/-- What a call of the scheduler task did: a returned `error` or a panic. -/
inductive Outcome where
  | returned (err : GoError)
  | panicked
  deriving DecidableEq, Repr

/-- Result of running `parallelResourceDeletion`: the outcome, the value of the
local `seconds` when the function is left (0 at the `return` of line 71, where
it is not declared yet) and the history at that moment. -/
structure Run where
  outcome : Outcome
  seconds : Int
  history : History
  deriving DecidableEq, Repr

/-- Lines 98-122 of `parallelResourceDeletion`: the log line with `List(false)`,
the reset of `seconds`, the first `Remove()`, the retry loop and the wrapping of
a remaining error. -/
def removeWithRetry (fuel : Nat) (resource : Resource) (config : Config) (h : History) :
    Option Run :=
  let h := h ++ [.list resource.Name false (resource.List false h)]
  let err := resource.Remove h
  let h := h ++ [.remove resource.Name err]
  match retryLoop resource config fuel err 0 h with
  | none => none
  | some (.timedOut text, seconds, h) => some ⟨.returned (some text), seconds, h⟩
  | some (.done none, seconds, h) => some ⟨.returned none, seconds, h⟩
  | some (.done (some msg), seconds, h) =>
    let items := resource.List false h
    some ⟨.returned (some (detailedErrorText resource.Name items msg)), seconds,
      h ++ [.list resource.Name false items]⟩

/-- Function `parallelResourceDeletion` (main.go 67-123), started in history `h0`. -/
def parallelResourceDeletion (fuel : Nat) (resourceMap : String → Option Resource)
    (resource : Resource) (config : Config) (h0 : History) : Option Run :=
  let items := resource.List false h0
  let h := h0 ++ [.list resource.Name false items]
  if items.length = 0 then
    some ⟨.returned none, 0, h⟩
  else
    match waitForDependencies resourceMap config resource.Dependencies false 0 h with
    | (.timedOut dependencyResourceName seconds, h) =>
      some ⟨.returned (some (dependencyTimeoutText resource.Name dependencyResourceName
        config.Timeout)), seconds, h⟩
    | (.panicked seconds, h) => some ⟨.panicked, seconds, h⟩
    | (.proceed refreshCache _, h) =>
      let h := if refreshCache then h ++ [.list resource.Name true (resource.List true h)] else h
      removeWithRetry fuel resource config h

/-! ## Driver poll loops

The body of one `errs.Go(func() error { ... })` task of `Remove()`: the work for a
single cached identifier. The remote service answers the k-th status query (k
counted from 0) as a function of k. The cache (`resourceMap`, a `syncmap.Map`
used as a set of keys) is the list of its keys. -/

/-- One remote interaction of a delete task. -/
inductive PollEvent where
  | delete
  | probe
  | sleep (seconds : Int)
  deriving DecidableEq, Repr

/-- Result of one delete task: the returned `error`, the value of the local
`seconds` when the task returns, the interactions in order, and the cache. -/
structure TaskRun where
  err : GoError
  seconds : Int
  trace : List PollEvent
  cache : Strings
  deriving DecidableEq, Repr

/-- Number of status queries in a trace. -/
def probeCount (tr : List PollEvent) : Nat := tr.count .probe

/-- Call `c.resourceMap.Delete(key)`. -/
def cacheDelete (cache : Strings) (key : String) : Strings :=
  cache.filter fun k => k ≠ key

/-- Text of the timeout error of storage_buckets.go 107 and sql_instances.go 106. -/
def pollTimeoutText (id typeName project : String) (timeout : Int) : String :=
  "[Error] Resource deletion timed out for " ++ id ++ " [type: " ++ typeName ++ " project: " ++
    project ++ "] (" ++ fmtInt timeout ++ " seconds)"

/-- The loop `for { ... }` of storage_buckets.go 92-109; `k` probes were made
before, `getErr k` is the `err` of the next `Buckets.Get(bucketID).Do()`. -/
def bucketPollLoop (config : Config) (getErr : Nat → GoError) (bucketID : String) :
    Nat → Nat → Int → List PollEvent → Strings → Option TaskRun
  | 0, _, _, _, _ => none
  | fuel + 1, k, seconds, tr, cache =>
    match getErr k with
    | some _ => some ⟨none, seconds, tr ++ [.probe], cacheDelete cache bucketID⟩
    | none =>
      let tr := tr ++ [.probe, .sleep config.PollTime]
      let seconds := seconds + config.PollTime
      if seconds > config.Timeout then
        some ⟨some (pollTimeoutText bucketID "StorageBuckets" config.Project config.Timeout),
          seconds, tr, cache⟩
      else
        bucketPollLoop config getErr bucketID fuel (k + 1) seconds tr cache

/-- The task of storage_buckets.go 85-110 for one bucket; `deleteErr` is the
`err` of `Buckets.Delete(bucketID).Do()`. -/
def bucketDeleteTask (config : Config) (deleteErr : GoError) (getErr : Nat → GoError)
    (bucketID : String) (fuel : Nat) (cache : Strings) : Option TaskRun :=
  match deleteErr with
  | some e => some ⟨some e, 0, [.delete], cache⟩
  | none => bucketPollLoop config getErr bucketID fuel 0 0 [.delete] cache

/-- The loop `for opStatus != "DONE"` of sql_instances.go 94-108 and the two
statements after it; `opGet k` is the answer of the next
`Operations.Get(project, operation.Name).Do()`: an error text or the status. -/
def instancePollLoop (config : Config) (opGet : Nat → Except String String)
    (instanceID : String) :
    Nat → String → Nat → Int → List PollEvent → Strings → Option TaskRun
  | 0, _, _, _, _, _ => none
  | fuel + 1, opStatus, k, seconds, tr, cache =>
    if opStatus ≠ "DONE" then
      match opGet k with
      | .error e => some ⟨some e, seconds, tr ++ [.probe], cache⟩
      | .ok status =>
        let tr := tr ++ [.probe, .sleep config.PollTime]
        let seconds := seconds + config.PollTime
        if seconds > config.Timeout then
          some ⟨some (pollTimeoutText instanceID "SQLInstances" config.Project config.Timeout),
            seconds, tr, cache⟩
        else
          instancePollLoop config opGet instanceID fuel status (k + 1) seconds tr cache
    else
      some ⟨none, seconds, tr, cacheDelete cache instanceID⟩

/-- The task of sql_instances.go 86-113 for one instance; `deleteErr` is the
`err` of `Instances.Delete(project, instanceID).Do()`. -/
def instanceDeleteTask (config : Config) (deleteErr : GoError)
    (opGet : Nat → Except String String) (instanceID : String) (fuel : Nat)
    (cache : Strings) : Option TaskRun :=
  match deleteErr with
  | some e => some ⟨some e, 0, [.delete], cache⟩
  | none => instancePollLoop config opGet instanceID fuel "" 0 0 [.delete] cache

/-- Probe sequence "still there for `n` queries, then gone" for a bucket. -/
def presentThenAbsent (n : Nat) (k : Nat) : GoError :=
  if k < n then none else some "googleapi: Error 404: Not Found, notFound"

/-- Status sequence "not DONE for `n` queries, then DONE" for an operation. -/
def runningThenDone (n : Nat) (k : Nat) : Except String String :=
  if k < n then .ok "RUNNING" else .ok "DONE"

/-! ## Stub drivers used for concrete runs -/

/-- Driver whose inventory is always `items` and whose `Remove()` always returns `err`. -/
def constResource (name : String) (deps items : Strings) (err : GoError) : Resource where
  Name := name
  Dependencies := deps
  Remove := fun _ => err
  List := fun _ _ => items

/-- Driver whose inventory is always `items` and whose `Remove()` answers the
k-th call (from 0) with `script k`. -/
def scriptedResource (name : String) (deps items : Strings) (script : Nat → GoError) :
    Resource where
  Name := name
  Dependencies := deps
  Remove := fun h => script (removeCalls h)
  List := fun _ _ => items

/-- Registry with the given drivers, keyed by `Name()` (the first entry wins). -/
def registry (rs : List Resource) (name : String) : Option Resource :=
  rs.find? fun r => r.Name = name

/-- Configuration of `main`: timeout 400 s, poll time 10 s. -/
def mainConfig : Config := ⟨"proj", false, 400, 10⟩

/-! ## Vocabulary of the proofs

Names for the histories that the scheduler passes through. -/

/-- History at the moment of the n-th `Remove()` call (n counted from 0) when
line 98 is reached in history `h` and every earlier `Remove()` was followed by a
retry cycle: before the first call only the `List(false)` of the log line of
line 98 happens; before each later call the previous call is answered and the
loop body makes its `List(true)`, the `List(false)` of its log line and its sleep. -/
def removeCallPoint (resource : Resource) (config : Config) (h : History) : Nat → History
  | 0 => h ++ [.list resource.Name false (resource.List false h)]
  | n + 1 =>
    let h := removeCallPoint resource config h n
    let h := h ++ [.remove resource.Name (resource.Remove h)]
    let h := h ++ [.list resource.Name true (resource.List true h)]
    let h := h ++ [.list resource.Name false (resource.List false h)]
    h ++ [.sleep config.PollTime]

/-- Answer of the n-th `Remove()` call. -/
def removeAnswer (resource : Resource) (config : Config) (h : History) (n : Nat) : GoError :=
  resource.Remove (removeCallPoint resource config h n)

/-- History right after the n-th `Remove()` call. -/
def afterRemove (resource : Resource) (config : Config) (h : History) (n : Nat) : History :=
  removeCallPoint resource config h n ++
    [.remove resource.Name (removeAnswer resource config h n)]

/-- The calls of one retry cycle. -/
def retryCycleCalls (resource : Resource) (config : Config) : List Call :=
  [.list resource.Name true, .list resource.Name false, .sleep config.PollTime,
    .remove resource.Name]

/-- Script of a `Remove()` stub that fails twice with a transient error and then succeeds. -/
def failTwice (k : Nat) : GoError :=
  if k < 2 then some "resourceNotReady" else none

/-! ## Auxiliary facts -/

theorem goInt_of_range (x : Int) (hlo : -9223372036854775808 ≤ x)
    (hhi : x ≤ 9223372036854775807) : goInt x = x := by
  unfold goInt
  omega

theorem goInt_le (x : Int) : goInt x ≤ 9223372036854775807 := by
  unfold goInt
  omega

@[simp] theorem removeCalls_nil : removeCalls [] = 0 := rfl

@[simp] theorem removeCalls_append (a b : History) :
    removeCalls (a ++ b) = removeCalls a + removeCalls b := by
  simp [removeCalls, List.countP_append]

@[simp] theorem removeCalls_cons_list (name : String) (refreshCache : Bool) (items : Strings)
    (t : History) : removeCalls (.list name refreshCache items :: t) = removeCalls t := by
  simp [removeCalls, List.countP_cons]

@[simp] theorem removeCalls_cons_sleep (seconds : Int) (t : History) :
    removeCalls (.sleep seconds :: t) = removeCalls t := by
  simp [removeCalls, List.countP_cons]

@[simp] theorem removeCalls_cons_remove (name : String) (err : GoError) (t : History) :
    removeCalls (.remove name err :: t) = removeCalls t + 1 := by
  simp [removeCalls, List.countP_cons]

@[simp] theorem lastRemoveError_append_remove (h : History) (name : String) (err : GoError) :
    lastRemoveError (h ++ [.remove name err]) = some err := by
  simp [lastRemoveError, List.foldl_append]

@[simp] theorem lastRemoveError_append_list (h : History) (name : String) (rc : Bool)
    (items : Strings) :
    lastRemoveError (h ++ [.list name rc items]) = lastRemoveError h := by
  simp [lastRemoveError, List.foldl_append]

theorem data_infix_of_parts (a b c : String) : b.data <:+: (a ++ b ++ c).data := by
  simp only [String.data_append]
  exact ⟨a.data, c.data, rfl⟩

theorem stringsContains_of_parts (a b c : String) :
    stringsContains (a ++ b ++ c) b = true := by
  simp only [stringsContains, decide_eq_true_eq]
  exact data_infix_of_parts a b c

theorem stringsContains_of_suffix (a b : String) :
    stringsContains (a ++ b) b = true := by
  simp only [stringsContains, decide_eq_true_eq, String.data_append]
  exact ⟨a.data, [], by simp⟩

theorem stringsContains_trans (s t u : String) (h1 : stringsContains s t = true)
    (h2 : stringsContains t u = true) : stringsContains s u = true := by
  simp only [stringsContains, decide_eq_true_eq] at *
  exact List.IsInfix.trans h2 h1

/-- What `strings.Join`-like accumulation keeps: the accumulator and every later element. -/
theorem intercalate_go_contains (sep : String) (xs : Strings) :
    ∀ acc : String,
      stringsContains (String.intercalate.go acc sep xs) acc = true ∧
      ∀ x, x ∈ xs → stringsContains (String.intercalate.go acc sep xs) x = true := by
  induction xs with
  | nil =>
    intro acc
    refine ⟨?_, by simp⟩
    simp [String.intercalate.go, stringsContains]
  | cons y ys ih =>
    intro acc
    obtain ⟨hacc, hrest⟩ := ih (acc ++ sep ++ y)
    simp only [String.intercalate.go]
    refine ⟨stringsContains_trans _ _ _ hacc ?_, ?_⟩
    · have := stringsContains_of_parts "" acc (sep ++ y)
      simpa [String.append_assoc] using this
    · intro x hx
      rcases List.mem_cons.mp hx with rfl | hx
      · exact stringsContains_trans _ _ _ hacc (stringsContains_of_suffix _ _)
      · exact hrest x hx

theorem intercalate_contains (sep : String) (xs : Strings) (x : String) (hx : x ∈ xs) :
    stringsContains (sep.intercalate xs) x = true := by
  cases xs with
  | nil => simp at hx
  | cons y ys =>
    simp only [String.intercalate]
    rcases List.mem_cons.mp hx with rfl | hx
    · exact (intercalate_go_contains sep ys _).1
    · exact (intercalate_go_contains sep ys _).2 x hx

/-- The dependency loop never calls `Remove()`. -/
theorem waitForDependencies_removeCalls (resourceMap : String → Option Resource)
    (config : Config) (deps : Strings) :
    ∀ (refreshCache : Bool) (seconds : Int) (h : History),
      removeCalls (waitForDependencies resourceMap config deps refreshCache seconds h).2 =
        removeCalls h := by
  induction deps with
  | nil => intro rc s h; rfl
  | cons d rest ih =>
    intro rc s h
    unfold waitForDependencies
    split
    · rfl
    · split
      · rfl
      · dsimp only
        split
        · rw [ih]; simp
        · simp

theorem apiErrorCheck_some (err : GoError) (h : apiErrorCheck err = true) :
    err = some err.Error := by
  cases err with
  | none => simp [apiErrorCheck] at h
  | some msg => rfl

/-- The retry loop is left at once when the error is not transient. -/
theorem retryLoop_done (resource : Resource) (config : Config) (fuel : Nat) (err : GoError)
    (seconds : Int) (h : History) (hterminal : apiErrorCheck err = false) :
    retryLoop resource config (fuel + 1) err seconds h = some (.done err, seconds, h) := by
  simp [retryLoop, hterminal]

/-- One turn of the retry loop after a transient answer within the timeout. -/
theorem retryLoop_step (resource : Resource) (config : Config) (h : History) (fuel n : Nat)
    (seconds : Int)
    (htransient : apiErrorCheck (removeAnswer resource config h n) = true)
    (hwithin : seconds ≤ config.Timeout) :
    retryLoop resource config (fuel + 1) (removeAnswer resource config h n) seconds
        (afterRemove resource config h n) =
      retryLoop resource config fuel (removeAnswer resource config h (n + 1))
        (goInt (seconds + config.PollTime)) (afterRemove resource config h (n + 1)) := by
  have hnot : ¬ seconds > config.Timeout := not_lt.mpr hwithin
  simp only [removeAnswer] at htransient
  simp only [retryLoop, afterRemove, removeAnswer, removeCallPoint, htransient, if_true, hnot,
    if_false]

/-- The retry loop returns the error of line 107 after a transient answer beyond the timeout. -/
theorem retryLoop_timeout (resource : Resource) (config : Config) (h : History) (fuel n : Nat)
    (seconds : Int)
    (htransient : apiErrorCheck (removeAnswer resource config h n) = true)
    (hover : config.Timeout < seconds) :
    retryLoop resource config (fuel + 1) (removeAnswer resource config h n) seconds
        (afterRemove resource config h n) =
      some (.timedOut (deleteTimeoutText resource.Name config.Timeout
          (removeAnswer resource config h n).Error), seconds,
        afterRemove resource config h n ++
          [.list resource.Name true (resource.List true (afterRemove resource config h n))]) := by
  have hgt : seconds > config.Timeout := hover
  simp only [removeAnswer] at htransient
  simp only [retryLoop, afterRemove, removeAnswer, htransient, if_true, hgt]

theorem removeWithRetry_eq (fuel : Nat) (resource : Resource) (config : Config) (h : History) :
    removeWithRetry fuel resource config h =
      match retryLoop resource config fuel (removeAnswer resource config h 0) 0
        (afterRemove resource config h 0) with
      | none => none
      | some (.timedOut text, seconds, h) => some ⟨.returned (some text), seconds, h⟩
      | some (.done none, seconds, h) => some ⟨.returned none, seconds, h⟩
      | some (.done (some msg), seconds, h) =>
        some ⟨.returned (some (detailedErrorText resource.Name (resource.List false h) msg)),
          seconds, h ++ [.list resource.Name false (resource.List false h)]⟩ := by
  simp only [removeWithRetry, afterRemove, removeAnswer, removeCallPoint]

theorem afterRemove_succ (resource : Resource) (config : Config) (h : History) (n : Nat) :
    ∃ (items1 items2 : Strings),
      afterRemove resource config h (n + 1) =
        afterRemove resource config h n ++
          [.list resource.Name true items1, .list resource.Name false items2,
            .sleep config.PollTime,
            .remove resource.Name (removeAnswer resource config h (n + 1))] := by
  refine ⟨resource.List true (afterRemove resource config h n),
    resource.List false (afterRemove resource config h n ++
      [.list resource.Name true (resource.List true (afterRemove resource config h n))]), ?_⟩
  simp only [afterRemove, removeAnswer, removeCallPoint, List.append_assoc]
  rfl

/-- Shape of the history after the n-th `Remove()` call. -/
theorem afterRemove_calls (resource : Resource) (config : Config) (h : History) (n : Nat) :
    ∃ tail : History,
      afterRemove resource config h n = h ++ tail ∧
      tail.map Event.call =
        [.list resource.Name false, .remove resource.Name] ++
          (List.replicate n (retryCycleCalls resource config)).flatten ∧
      removeCalls tail = n + 1 := by
  induction n with
  | zero =>
    refine ⟨[.list resource.Name false (resource.List false h),
      .remove resource.Name (removeAnswer resource config h 0)], ?_, ?_, ?_⟩
    · simp [afterRemove, removeCallPoint]
    · simp [Event.call]
    · simp
  | succ n ih =>
    obtain ⟨tail, htail, hcalls, hcount⟩ := ih
    obtain ⟨items1, items2, hsucc⟩ := afterRemove_succ resource config h n
    refine ⟨tail ++ [.list resource.Name true items1, .list resource.Name false items2,
      .sleep config.PollTime, .remove resource.Name (removeAnswer resource config h (n + 1))],
      ?_, ?_, ?_⟩
    · rw [hsucc, htail, List.append_assoc]
    · rw [List.map_append, hcalls, List.replicate_succ', List.flatten_append]
      simp [retryCycleCalls, Event.call]
    · simp [hcount]

@[simp] theorem lastRemoveError_afterRemove (resource : Resource) (config : Config)
    (h : History) (n : Nat) :
    lastRemoveError (afterRemove resource config h n) =
      some (removeAnswer resource config h n) := by
  simp [afterRemove]

/-- When the inventory is not empty and the dependency loop is left normally,
the task continues with the forced refresh (if any) and lines 98-122. -/
theorem parallelResourceDeletion_proceed (fuel : Nat) (resourceMap : String → Option Resource)
    (resource : Resource) (config : Config) (h0 hd h1 : History) (refreshCache : Bool)
    (waited : Int)
    (hinv : resource.List false h0 ≠ [])
    (hdep : waitForDependencies resourceMap config resource.Dependencies false 0
      (h0 ++ [.list resource.Name false (resource.List false h0)]) =
        (.proceed refreshCache waited, hd))
    (hh1 : h1 = if refreshCache then hd ++ [.list resource.Name true (resource.List true hd)]
      else hd) :
    parallelResourceDeletion fuel resourceMap resource config h0 =
      removeWithRetry fuel resource config h1 := by
  subst hh1
  cases refreshCache <;> simp [parallelResourceDeletion, hinv, hdep]

/-- The retry loop when the `Remove()` calls n, ..., n + j all fail with a
transient error and `seconds` passes the timeout exactly after j more poll times,
without leaving the range of a Go `int`. -/
theorem retryLoop_transient_run (resource : Resource) (config : Config) (h : History)
    (hp : 0 < config.PollTime) :
    ∀ (j n fuel : Nat) (seconds : Int),
      (∀ i, n ≤ i → i ≤ n + j → apiErrorCheck (removeAnswer resource config h i) = true) →
      0 ≤ seconds →
      seconds + j * config.PollTime - config.PollTime ≤ config.Timeout →
      config.Timeout < seconds + j * config.PollTime →
      seconds + j * config.PollTime ≤ 9223372036854775807 →
      j + 1 ≤ fuel →
      retryLoop resource config fuel (removeAnswer resource config h n) seconds
          (afterRemove resource config h n) =
        some (.timedOut (deleteTimeoutText resource.Name config.Timeout
            (removeAnswer resource config h (n + j)).Error),
          seconds + j * config.PollTime,
          afterRemove resource config h (n + j) ++
            [.list resource.Name true
              (resource.List true (afterRemove resource config h (n + j)))]) := by
  intro j
  induction j with
  | zero =>
    intro n fuel seconds hall _ _ hover _ hfuel
    obtain ⟨f, rfl⟩ : ∃ f, fuel = f + 1 := ⟨fuel - 1, by omega⟩
    rw [retryLoop_timeout resource config h f n seconds (hall n le_rfl (by omega))
      (by simpa using hover)]
    simp
  | succ j ih =>
    intro n fuel seconds hall hnonneg hwithin hover hrange hfuel
    obtain ⟨f, rfl⟩ : ∃ f, fuel = f + 1 := ⟨fuel - 1, by omega⟩
    have hj : (0 : Int) ≤ j * config.PollTime :=
      mul_nonneg (Int.ofNat_nonneg j) hp.le
    push_cast at hwithin hover hrange
    have hle : seconds ≤ config.Timeout := by linarith
    have hwrap : goInt (seconds + config.PollTime) = seconds + config.PollTime :=
      goInt_of_range _ (by linarith) (by linarith)
    rw [retryLoop_step resource config h f n seconds (hall n le_rfl (by omega)) hle, hwrap,
      ih (n + 1) f (seconds + config.PollTime) (fun i h1 h2 => hall i (by omega) (by omega))
        (by linarith) (by linarith) (by linarith) (by linarith) (by omega)]
    have hidx : n + 1 + j = n + (j + 1) := by omega
    rw [hidx]
    congr 3
    push_cast
    ring

/-- With a timeout of 2^63 - 1 no value of `seconds` is above the timeout: while
every `Remove()` fails with a transient error the retry loop uses up any fuel. -/
theorem retryLoop_never_times_out (resource : Resource) (config : Config)
    (hmax : config.Timeout = 9223372036854775807)
    (hall : ∀ h, apiErrorCheck (resource.Remove h) = true) :
    ∀ (fuel : Nat) (err : GoError) (seconds : Int) (h : History),
      apiErrorCheck err = true → seconds ≤ 9223372036854775807 →
      retryLoop resource config fuel err seconds h = none := by
  intro fuel
  induction fuel with
  | zero => intros; rfl
  | succ f ih =>
    intro err seconds h herr hs
    have hnot : ¬ seconds > config.Timeout := by rw [hmax]; exact not_lt.mpr hs
    simp only [retryLoop, herr, if_true, hnot, if_false]
    exact ih _ _ _ (hall _) (goInt_le _)

theorem probeCount_cycles (n : Nat) (p : Int) :
    probeCount (List.replicate n [PollEvent.probe, .sleep p]).flatten = n := by
  induction n with
  | zero => rfl
  | succ n ih =>
    simp only [probeCount] at ih
    simp [probeCount, List.replicate_succ, List.count_cons, ih]

theorem detailedErrorText_eq (name : String) (items : Strings) (msg : String) :
    detailedErrorText name items msg =
      "[Error] Resource: " ++ name ++ ". Items: [" ++ " ".intercalate items ++
        "]. Details of error below:\n " ++ msg := by
  apply String.ext
  simp only [detailedErrorText, fmtStrings, String.data_append, List.append_assoc]
  rfl

theorem deleteTimeoutText_eq (name : String) (timeOut : Int) (errText : String) :
    deleteTimeoutText name timeOut errText =
      "[Error] Resource " ++ name ++ " timed out whilst trying to delete. (" ++
        toString timeOut ++ " seconds). Details of error below:\n " ++ errText := rfl

theorem not_mem_cacheDelete (cache : Strings) (key : String) :
    key ∉ cacheDelete cache key := by
  simp [cacheDelete]

/-- The bucket loop when the bucket is seen for `n` more probes and then is gone. -/
theorem bucketPollLoop_present_then_absent (config : Config) (getErr : Nat → GoError)
    (bucketID : String) (hp : 0 ≤ config.PollTime) :
    ∀ (n fuel k : Nat) (seconds : Int) (tr : List PollEvent) (cache : Strings),
      (∀ i, i < n → getErr (k + i) = none) → getErr (k + n) ≠ none →
      seconds + n * config.PollTime ≤ config.Timeout → n < fuel →
      bucketPollLoop config getErr bucketID fuel k seconds tr cache =
        some ⟨none, seconds + n * config.PollTime,
          tr ++ (List.replicate n [PollEvent.probe, .sleep config.PollTime]).flatten ++ [.probe],
          cacheDelete cache bucketID⟩ := by
  intro n
  induction n with
  | zero =>
    intro fuel k seconds tr cache _ habsent _ hfuel
    obtain ⟨f, rfl⟩ : ∃ f, fuel = f + 1 := ⟨fuel - 1, by omega⟩
    obtain ⟨e, he⟩ := Option.ne_none_iff_exists'.mp habsent
    simp only [Nat.add_zero] at he
    simp [bucketPollLoop, he]
  | succ n ih =>
    intro fuel k seconds tr cache hpresent habsent hwithin hfuel
    obtain ⟨f, rfl⟩ : ∃ f, fuel = f + 1 := ⟨fuel - 1, by omega⟩
    have h0 : getErr k = none := by simpa using hpresent 0 (Nat.succ_pos n)
    have hn : (0 : Int) ≤ n * config.PollTime := mul_nonneg (Int.ofNat_nonneg n) hp
    have hstep : ¬ seconds + config.PollTime > config.Timeout := by
      push_cast at hwithin
      linarith
    have hrec := ih f (k + 1) (seconds + config.PollTime)
      (tr ++ [.probe, .sleep config.PollTime]) cache
      (fun i hi => by
        have := hpresent (i + 1) (by omega)
        rwa [show k + (i + 1) = k + 1 + i by omega] at this)
      (by rwa [show k + (n + 1) = k + 1 + n by omega] at habsent)
      (by push_cast at hwithin; linarith) (by omega)
    simp only [bucketPollLoop, h0, hstep, if_false]
    rw [hrec]
    simp only [List.replicate_succ, List.flatten_cons, List.append_assoc]
    congr 2
    push_cast
    ring

/-! ## The classifier -/

/-- C5: `apiErrorCheck e` is true exactly when `e` is a non-nil error whose text
has one of the three fixed markers as a substring; it is false for `nil` and for
every other error. -/
theorem apiErrorCheck_iff_marker (e : GoError) :
    (apiErrorCheck e = true ↔
      ∃ msg, e = some msg ∧
        ("resourceInUseByAnotherResource".data <:+: msg.data ∨
          "resourceNotReady".data <:+: msg.data ∨
          "googleapi: Error 404".data <:+: msg.data)) ∧
    apiErrorCheck none = false := by
  refine ⟨?_, rfl⟩
  cases e with
  | none => simp [apiErrorCheck]
  | some msg => simp [apiErrorCheck, stringsContains]

/-! ## The scheduler task -/

/-- C7: when the cached listing `List(false)` of the resource is empty, the task
returns nil and its only interaction is that one `List(false)` call: no
`Remove()`, no `List` on a dependency, no sleep, whatever the dependencies are. -/
theorem skip_on_empty_inventory (fuel : Nat) (resourceMap : String → Option Resource)
    (resource : Resource) (config : Config) (h0 : History)
    (hempty : resource.List false h0 = []) :
    parallelResourceDeletion fuel resourceMap resource config h0 =
      some ⟨.returned none, 0, h0 ++ [.list resource.Name false []]⟩ := by
  simp [parallelResourceDeletion, hempty]

/-- Witness of C7: a driver with an empty cache that declares a dependency which
still has items. -/
theorem skip_on_empty_inventory_witness :
    (constResource "R" ["A"] [] none).List false [] = [] ∧
    parallelResourceDeletion 0 (registry [constResource "A" [] ["a"] none])
      (constResource "R" ["A"] [] none) mainConfig [] =
      some ⟨.returned none, 0, [] ++ [.list (constResource "R" ["A"] [] none).Name false []]⟩ :=
  ⟨rfl, skip_on_empty_inventory 0 _ _ mainConfig [] rfl⟩

/-- C1 (the code departs from it): with one declared dependency `A` that still
lists an item, timeout 400 and poll time 10, the task sleeps once (10 s, within
the timeout) and then calls `Remove()`, although the latest `List(true)` of `A`
was non-empty; and with dependencies `A` (empty) and `B` (non-empty) it calls
`Remove()` without ever listing `B`. -/
theorem remove_despite_pending_dependency :
    (parallelResourceDeletion 1 (registry [constResource "A" [] ["a"] none])
        (constResource "R" ["A"] ["x"] none) mainConfig [] =
      some ⟨.returned none, 0,
        [.list "R" false ["x"], .list "A" true ["a"], .sleep 10, .list "R" true ["x"],
          .list "R" false ["x"], .remove "R" none]⟩ ∧
      latestRefresh "A"
        [.list "R" false ["x"], .list "A" true ["a"], .sleep 10, .list "R" true ["x"],
          .list "R" false ["x"]] = some ["a"] ∧
      (10 : Int) ≤ mainConfig.Timeout) ∧
    (parallelResourceDeletion 1
        (registry [constResource "A" [] [] none, constResource "B" [] ["b"] none])
        (constResource "R" ["A", "B"] ["x"] none) mainConfig [] =
      some ⟨.returned none, 0,
        [.list "R" false ["x"], .list "A" true [], .list "R" false ["x"],
          .remove "R" none]⟩ ∧
      (constResource "B" [] ["b"] none).List true
        [.list "R" false ["x"], .list "A" true [], .list "R" false ["x"]] = ["b"]) := by
  decide

/-- C10 (the code departs from it): with dependencies `A` (non-empty) and `B`
(empty, never listed), timeout 5 and poll time 10, the timeout error names `B`,
not the blocking `A`; and with the single dependency `A` the accumulated wait
(10) exceeds the timeout (5) but no timeout error is returned and `Remove()` is
called. -/
theorem dependency_timeout_names_next_dependency :
    (parallelResourceDeletion 1
        (registry [constResource "A" [] ["a"] none, constResource "B" [] [] none])
        (constResource "R" ["A", "B"] ["x"] none) ⟨"proj", false, 5, 10⟩ [] =
      some ⟨.returned (some
          "[Error] Resource R timed out whilst waiting for dependency B to delete. (5 seconds)"),
        10, [.list "R" false ["x"], .list "A" true ["a"], .sleep 10]⟩ ∧
      latestRefresh "B" [.list "R" false ["x"], .list "A" true ["a"], .sleep 10] = none ∧
      latestRefresh "A" [.list "R" false ["x"], .list "A" true ["a"], .sleep 10] =
        some ["a"]) ∧
    (waitForDependencies (registry [constResource "A" [] ["a"] none]) ⟨"proj", false, 5, 10⟩
        ["A"] false 0 [.list "R" false ["x"]] =
      (.proceed true 10, [.list "R" false ["x"], .list "A" true ["a"], .sleep 10]) ∧
      parallelResourceDeletion 1 (registry [constResource "A" [] ["a"] none])
        (constResource "R" ["A"] ["x"] none) ⟨"proj", false, 5, 10⟩ [] =
      some ⟨.returned none, 0,
        [.list "R" false ["x"], .list "A" true ["a"], .sleep 10, .list "R" true ["x"],
          .list "R" false ["x"], .remove "R" none]⟩) := by
  decide

/-- C4: with a non-empty inventory and a dependency loop that lets the task go
on to line 98 in history `h1` (the history `hd` of the dependency loop, plus
the forced refresh when a dependency made the task wait), if the first
`Remove()` call of the run returns a non-transient error `msg`, then the task
makes exactly three more calls: the `List(false)` of the log line of line 98,
that one `Remove()`, and the `List(false)` of line 118: no retry refresh and no
retry sleep. It returns the error whose text is spelled out below; the text
contains `Name()`, the listing `items` returned by that last `List(false)`
(in brackets, separated by blanks, and so each of its items) and `msg`. -/
theorem terminal_error_fails_without_retry (fuel : Nat)
    (resourceMap : String → Option Resource) (resource : Resource) (config : Config)
    (h0 hd h1 : History) (refreshCache : Bool) (waited : Int) (msg : String)
    (hinv : resource.List false h0 ≠ [])
    (hdep : waitForDependencies resourceMap config resource.Dependencies false 0
      (h0 ++ [.list resource.Name false (resource.List false h0)]) =
        (.proceed refreshCache waited, hd))
    (hh1 : h1 = if refreshCache then hd ++ [.list resource.Name true (resource.List true hd)]
      else hd)
    (hfirst : resource.Remove (h1 ++ [.list resource.Name false (resource.List false h1)]) =
      some msg)
    (hterminal : apiErrorCheck (some msg) = false) :
    ∃ (items : Strings) (text : String),
      items = resource.List false (h1 ++ [.list resource.Name false (resource.List false h1),
        .remove resource.Name (some msg)]) ∧
      text = "[Error] Resource: " ++ resource.Name ++ ". Items: [" ++ " ".intercalate items ++
        "]. Details of error below:\n " ++ msg ∧
      parallelResourceDeletion (fuel + 1) resourceMap resource config h0 =
        some ⟨.returned (some text), 0,
          h1 ++ [.list resource.Name false (resource.List false h1),
            .remove resource.Name (some msg), .list resource.Name false items]⟩ ∧
      stringsContains text resource.Name = true ∧
      stringsContains text ("[" ++ " ".intercalate items ++ "]") = true ∧
      (∀ item, item ∈ items → stringsContains text item = true) ∧
      stringsContains text msg = true := by
  have hans : removeAnswer resource config h1 0 = some msg := hfirst
  have hterm : apiErrorCheck (removeAnswer resource config h1 0) = false := by
    rw [hans]; exact hterminal
  have hlisting : ∀ (name listing : String),
      stringsContains ("[Error] Resource: " ++ name ++ ". Items: [" ++ listing ++
        "]. Details of error below:\n " ++ msg) ("[" ++ listing ++ "]") = true := by
    intro name listing
    have := stringsContains_of_parts ("[Error] Resource: " ++ name ++ ". Items: ")
      ("[" ++ listing ++ "]") (". Details of error below:\n " ++ msg)
    have heq : "[Error] Resource: " ++ name ++ ". Items: " ++ ("[" ++ listing ++ "]") ++
        (". Details of error below:\n " ++ msg) =
        "[Error] Resource: " ++ name ++ ". Items: [" ++ listing ++
          "]. Details of error below:\n " ++ msg := by
      apply String.ext
      simp only [String.data_append, List.append_assoc]
      rfl
    rwa [heq] at this
  refine ⟨_, _, rfl, rfl, ?_, ?_, hlisting _ _, ?_, stringsContains_of_suffix _ msg⟩
  · rw [parallelResourceDeletion_proceed (fuel + 1) resourceMap resource config h0 hd h1
      refreshCache waited hinv hdep hh1, removeWithRetry_eq,
      retryLoop_done resource config fuel _ 0 _ hterm]
    simp only [afterRemove, removeCallPoint, hans, detailedErrorText_eq, List.append_assoc,
      List.singleton_append, List.cons_append, List.nil_append]
  · have := stringsContains_of_parts "[Error] Resource: " resource.Name
      (". Items: [" ++ " ".intercalate (resource.List false
        (h1 ++ [.list resource.Name false (resource.List false h1),
          .remove resource.Name (some msg)])) ++ "]. Details of error below:\n " ++ msg)
    simpa [String.append_assoc] using this
  · intro item hitem
    refine stringsContains_trans _ _ _ (hlisting _ _) ?_
    exact stringsContains_trans _ _ _ (stringsContains_of_parts "[" _ "]")
      (intercalate_contains " " _ item hitem)

/-- Witness of C4: a driver with the two items x and y whose `Remove()` answers
"boom"; the returned text and the whole run are spelled out. -/
theorem terminal_error_fails_without_retry_witness :
    parallelResourceDeletion 1 (registry []) (constResource "R" [] ["x", "y"] (some "boom"))
        mainConfig [] =
      some ⟨.returned (some "[Error] Resource: R. Items: [x y]. Details of error below:\n boom"),
        0, [.list "R" false ["x", "y"], .list "R" false ["x", "y"], .remove "R" (some "boom"),
          .list "R" false ["x", "y"]]⟩ := by
  obtain ⟨items, text, hitems, htext, hrun, _⟩ :=
    terminal_error_fails_without_retry 0 (registry [])
      (constResource "R" [] ["x", "y"] (some "boom")) mainConfig [] [.list "R" false ["x", "y"]]
      [.list "R" false ["x", "y"]] false 0 "boom" (by decide) (by decide) (by decide)
      (by decide) (by decide)
  rw [hrun, htext, hitems]
  decide

/-- C3 as stated fails in three ways. With an empty inventory and a `Remove()`
that would always fail with a transient error the task returns nil. With two
dependencies of which the first still has an item, timeout 5 and poll time 10,
the task returns the dependency timeout error before any `Remove()`. With
timeout 2^63 - 1 and poll time 2^62 (both Go `int` values, p > 0, t >= 0) no
value of `seconds` is above the timeout, so the task never returns: whatever
the fuel, the run uses it up. -/
theorem transient_forever_claim_fails :
    parallelResourceDeletion 5 (registry []) (constResource "R" [] [] (some "resourceNotReady"))
        mainConfig [] =
      some ⟨.returned none, 0, [.list "R" false []]⟩ ∧
    parallelResourceDeletion 5
        (registry [constResource "A" [] ["a"] none, constResource "B" [] [] none])
        (constResource "R" ["A", "B"] ["x"] (some "resourceNotReady")) ⟨"proj", false, 5, 10⟩ [] =
      some ⟨.returned (some
          "[Error] Resource R timed out whilst waiting for dependency B to delete. (5 seconds)"),
        10, [.list "R" false ["x"], .list "A" true ["a"], .sleep 10]⟩ ∧
    ((0 : Int) < 4611686018427387904 ∧ (0 : Int) ≤ 9223372036854775807 ∧
      ∀ fuel : Nat,
        parallelResourceDeletion fuel (registry [])
          (constResource "R" [] ["x"] (some "resourceNotReady"))
          ⟨"proj", false, 9223372036854775807, 4611686018427387904⟩ [] = none) := by
  refine ⟨by decide, by decide, by decide, by decide, ?_⟩
  intro fuel
  have hloop := retryLoop_never_times_out
    (constResource "R" [] ["x"] (some "resourceNotReady"))
    ⟨"proj", false, 9223372036854775807, 4611686018427387904⟩ rfl
    (fun _ => show apiErrorCheck (some "resourceNotReady") = true by decide) fuel
    (removeAnswer (constResource "R" [] ["x"] (some "resourceNotReady"))
      ⟨"proj", false, 9223372036854775807, 4611686018427387904⟩ [.list "R" false ["x"]] 0) 0
    (afterRemove (constResource "R" [] ["x"] (some "resourceNotReady"))
      ⟨"proj", false, 9223372036854775807, 4611686018427387904⟩ [.list "R" false ["x"]] 0)
    (by decide) (by decide)
  rw [parallelResourceDeletion_proceed fuel (registry [])
    (constResource "R" [] ["x"] (some "resourceNotReady"))
    ⟨"proj", false, 9223372036854775807, 4611686018427387904⟩ [] [.list "R" false ["x"]]
    [.list "R" false ["x"]] false 0 (by decide) (by decide) (by decide), removeWithRetry_eq,
    hloop]

/-- C3 (amended): with a non-empty inventory, a dependency loop that lets the
task go on to line 98 in history `h1`, poll time p > 0 and timeout t >= 0 such
that the first multiple of p above t, (t / p + 1) * p, is at most 2^63 - 1 (true
whenever t + p <= 2^63 - 1), if every `Remove()` call of the run (the calls
0, ..., k + 1 with k = t / p) fails with a transient error, then the task
terminates (any fuel of at least k + 2 loop heads is enough) with the error of
line 107, whose text is spelled out below and ends with the text `e` of the last
`Remove()` error. The retry loop runs exactly k + 1 cycles (refresh, log line,
sleep p, `Remove()`) and returns at the next refresh, with `seconds` =
(k + 1) * p, the first multiple of p above t: k * p <= t < (k + 1) * p. -/
theorem transient_forever_times_out (resourceMap : String → Option Resource)
    (resource : Resource) (config : Config) (h0 hd h1 : History) (refreshCache : Bool)
    (waited : Int)
    (hinv : resource.List false h0 ≠ [])
    (hdep : waitForDependencies resourceMap config resource.Dependencies false 0
      (h0 ++ [.list resource.Name false (resource.List false h0)]) =
        (.proceed refreshCache waited, hd))
    (hh1 : h1 = if refreshCache then hd ++ [.list resource.Name true (resource.List true hd)]
      else hd)
    (hp : 0 < config.PollTime) (ht : 0 ≤ config.Timeout)
    (hrange : (config.Timeout / config.PollTime + 1) * config.PollTime ≤ 9223372036854775807)
    (hall : ∀ n, n ≤ (config.Timeout / config.PollTime).toNat + 1 →
      apiErrorCheck (resource.Remove (removeCallPoint resource config h1 n)) = true)
    (fuel : Nat) (hfuel : (config.Timeout / config.PollTime).toNat + 2 ≤ fuel) :
    ∃ (tail : History) (e text : String),
      text = "[Error] Resource " ++ resource.Name ++ " timed out whilst trying to delete. (" ++
        toString config.Timeout ++ " seconds). Details of error below:\n " ++ e ∧
      parallelResourceDeletion fuel resourceMap resource config h0 =
        some ⟨.returned (some text),
          ((config.Timeout / config.PollTime).toNat + 1 : Nat) * config.PollTime, h1 ++ tail⟩ ∧
      resource.Remove (removeCallPoint resource config h1
        ((config.Timeout / config.PollTime).toNat + 1)) = some e ∧
      lastRemoveError (h1 ++ tail) = some (some e) ∧
      stringsContains text e = true ∧
      tail.map Event.call =
        [Call.list resource.Name false, .remove resource.Name] ++
          (List.replicate ((config.Timeout / config.PollTime).toNat + 1)
            [Call.list resource.Name true, .list resource.Name false, .sleep config.PollTime,
              .remove resource.Name]).flatten ++
          [.list resource.Name true] ∧
      removeCalls tail = (config.Timeout / config.PollTime).toNat + 2 ∧
      ((config.Timeout / config.PollTime).toNat : Int) * config.PollTime ≤ config.Timeout ∧
      config.Timeout <
        ((config.Timeout / config.PollTime).toNat + 1 : Nat) * config.PollTime := by
  have hk : ((config.Timeout / config.PollTime).toNat : Int) = config.Timeout / config.PollTime :=
    Int.toNat_of_nonneg (Int.ediv_nonneg ht hp.le)
  have hlow : ((config.Timeout / config.PollTime).toNat : Int) * config.PollTime ≤
      config.Timeout := by
    rw [hk]
    exact Int.ediv_mul_le _ hp.ne'
  have hhigh : config.Timeout <
      ((config.Timeout / config.PollTime).toNat + 1 : Nat) * config.PollTime := by
    push_cast
    rw [hk]
    exact Int.lt_ediv_add_one_mul_self _ hp
  have hrange2 : (0 : Int) + ((config.Timeout / config.PollTime).toNat + 1 : Nat) *
      config.PollTime ≤ 9223372036854775807 := by
    push_cast
    rw [hk]
    simpa using hrange
  have hlast : apiErrorCheck (removeAnswer resource config h1
      ((config.Timeout / config.PollTime).toNat + 1)) = true := hall _ le_rfl
  obtain ⟨tail, htail, hcalls, hcount⟩ :=
    afterRemove_calls resource config h1 ((config.Timeout / config.PollTime).toNat + 1)
  have hrun := retryLoop_transient_run resource config h1 hp
    ((config.Timeout / config.PollTime).toNat + 1) 0 fuel 0
    (fun i _ hi => hall i (by omega)) le_rfl (by push_cast at hhigh ⊢; linarith)
    (by simpa using hhigh) hrange2 (by omega)
  simp only [Nat.zero_add, zero_add] at hrun
  refine ⟨tail ++ [.list resource.Name true (resource.List true
      (afterRemove resource config h1 ((config.Timeout / config.PollTime).toNat + 1)))],
    (removeAnswer resource config h1 ((config.Timeout / config.PollTime).toNat + 1)).Error, _,
    rfl, ?_, (apiErrorCheck_some _ hlast), ?_, stringsContains_of_suffix _ _, ?_, ?_, hlow,
    hhigh⟩
  · rw [parallelResourceDeletion_proceed fuel resourceMap resource config h0 hd h1
      refreshCache waited hinv hdep hh1, removeWithRetry_eq, hrun, htail,
      deleteTimeoutText_eq, List.append_assoc]
  · rw [← List.append_assoc, ← htail, lastRemoveError_append_list,
      lastRemoveError_afterRemove]
    exact congrArg some (apiErrorCheck_some _ hlast)
  · rw [List.map_append, hcalls]
    simp [retryCycleCalls, Event.call]
  · simp [hcount]

/-- Witness of C3 (amended): timeout 25, poll time 10, `Remove()` always
"resourceNotReady": three cycles, timeout error at `seconds` = 30 after four
`Remove()` calls; the returned text is spelled out. -/
theorem transient_forever_times_out_witness :
    ∃ tail : History,
      parallelResourceDeletion 4 (registry [])
          (constResource "R" [] ["x"] (some "resourceNotReady")) ⟨"proj", false, 25, 10⟩ [] =
        some ⟨.returned (some ("[Error] Resource R timed out whilst trying to delete. " ++
            "(25 seconds). Details of error below:\n resourceNotReady")), 30,
          [.list "R" false ["x"]] ++ tail⟩ ∧
      lastRemoveError ([.list "R" false ["x"]] ++ tail) = some (some "resourceNotReady") ∧
      removeCalls tail = 4 := by
  obtain ⟨tail, e, text, htext, hrun, hans, hlast, _, _, hcount, _⟩ :=
    transient_forever_times_out (registry [])
      (constResource "R" [] ["x"] (some "resourceNotReady")) ⟨"proj", false, 25, 10⟩ []
      [.list "R" false ["x"]] [.list "R" false ["x"]] false 0 (by decide) (by decide)
      (by decide) (by decide) (by decide) (by decide)
      (fun _ _ => show apiErrorCheck (some "resourceNotReady") = true by decide) 4 (by decide)
  have he : e = "resourceNotReady" := (Option.some.inj hans).symm
  subst he
  subst htext
  exact ⟨tail, hrun, hlast, hcount⟩

/-- C2 as stated fails in two ways. With poll time -2 and timeout -1 (so p <= t)
and a `Remove()` that fails twice with a transient error and then succeeds, the
first retry cycle already finds `seconds` (0) above the timeout and the task
returns the timeout error after a single `Remove()` call. With poll time 2^62
and timeout 2^62 (p <= t) the task returns nil after three `Remove()` calls, but
the second `seconds += pollTime` wraps around: `seconds` is -2^63, not 2 * p. -/
theorem two_failures_claim_fails :
    ((-2 : Int) ≤ -1 ∧
      parallelResourceDeletion 3 (registry []) (scriptedResource "R" [] ["x"] failTwice)
          ⟨"proj", false, -1, -2⟩ [] =
        some ⟨.returned (some ("[Error] Resource R timed out whilst trying to delete. " ++
            "(-1 seconds). Details of error below:\n resourceNotReady")), 0,
          [.list "R" false ["x"], .list "R" false ["x"], .remove "R" (some "resourceNotReady"),
            .list "R" true ["x"]]⟩) ∧
    ((parallelResourceDeletion 3 (registry []) (scriptedResource "R" [] ["x"] failTwice)
          ⟨"proj", false, 4611686018427387904, 4611686018427387904⟩ []).map
        (fun run => (run.outcome, run.seconds, removeCalls run.history)) =
        some (.returned none, -9223372036854775808, 3) ∧
      (2 : Int) * 4611686018427387904 = 9223372036854775808) := by
  decide

/-- C2 (amended): with a non-empty inventory, a dependency loop that is left
without any wait (in history `hd`), poll time p and timeout t with p <= t,
0 <= t and 2 * p in the range of a Go `int`, if the first two `Remove()` calls of
the run fail with a transient error and the third returns nil, the task returns
nil with `seconds` = 2 * p after exactly three `Remove()` calls and two retry
cycles (each: `List(true)`, the `List(false)` of the log line, a sleep of p). -/
theorem two_transient_failures_then_success (fuel : Nat)
    (resourceMap : String → Option Resource) (resource : Resource) (config : Config)
    (h0 hd : History) (waited : Int)
    (hinv : resource.List false h0 ≠ [])
    (hdep : waitForDependencies resourceMap config resource.Dependencies false 0
      (h0 ++ [.list resource.Name false (resource.List false h0)]) =
        (.proceed false waited, hd))
    (hpt : config.PollTime ≤ config.Timeout) (ht : 0 ≤ config.Timeout)
    (hlo : -9223372036854775808 ≤ 2 * config.PollTime)
    (hhi : 2 * config.PollTime ≤ 9223372036854775807)
    (hfirst : apiErrorCheck (resource.Remove (removeCallPoint resource config hd 0)) = true)
    (hsecond : apiErrorCheck (resource.Remove (removeCallPoint resource config hd 1)) = true)
    (hthird : resource.Remove (removeCallPoint resource config hd 2) = none) :
    ∃ tail : History,
      parallelResourceDeletion (fuel + 3) resourceMap resource config h0 =
        some ⟨.returned none, 2 * config.PollTime, hd ++ tail⟩ ∧
      hd ++ tail = removeCallPoint resource config hd 2 ++ [.remove resource.Name none] ∧
      tail.map Event.call =
        [.list resource.Name false, .remove resource.Name,
          .list resource.Name true, .list resource.Name false, .sleep config.PollTime,
          .remove resource.Name,
          .list resource.Name true, .list resource.Name false, .sleep config.PollTime,
          .remove resource.Name] ∧
      removeCalls tail = 3 := by
  have e1 : goInt (0 + config.PollTime) = config.PollTime := by
    rw [zero_add]
    exact goInt_of_range _ (by linarith) (by linarith)
  have e2 : goInt (config.PollTime + config.PollTime) = 2 * config.PollTime := by
    rw [← two_mul]
    exact goInt_of_range _ hlo hhi
  have hans : removeAnswer resource config hd 2 = none := hthird
  obtain ⟨tail, htail, hcalls, hcount⟩ := afterRemove_calls resource config hd 2
  refine ⟨tail, ?_, ?_, ?_, hcount⟩
  · rw [parallelResourceDeletion_proceed (fuel + 3) resourceMap resource config h0 hd hd false
      waited hinv hdep (by simp), removeWithRetry_eq,
      retryLoop_step resource config hd (fuel + 2) 0 0 hfirst ht, e1,
      retryLoop_step resource config hd (fuel + 1) 1 _ hsecond hpt, e2,
      retryLoop_done resource config fuel _ _ _ (by rw [hans]; rfl), htail]
    simp only [hans]
  · rw [← htail, afterRemove, hans]
  · rw [hcalls]
    simp [retryCycleCalls]

/-- Witness of C2 (amended): the stub that fails twice, timeout 400 and poll time 10. -/
theorem two_transient_failures_then_success_witness :
    ∃ tail : History,
      parallelResourceDeletion (0 + 3) (registry []) (scriptedResource "R" [] ["x"] failTwice)
          mainConfig [] =
        some ⟨.returned none, 2 * mainConfig.PollTime, [.list "R" false ["x"]] ++ tail⟩ ∧
      [.list "R" false ["x"]] ++ tail =
        removeCallPoint (scriptedResource "R" [] ["x"] failTwice) mainConfig
          [.list "R" false ["x"]] 2 ++ [.remove "R" none] ∧
      tail.map Event.call =
        [.list "R" false, .remove "R", .list "R" true, .list "R" false, .sleep 10, .remove "R",
          .list "R" true, .list "R" false, .sleep 10, .remove "R"] ∧
      removeCalls tail = 3 :=
  two_transient_failures_then_success 0 (registry []) (scriptedResource "R" [] ["x"] failTwice)
    mainConfig [] [.list "R" false ["x"]] 0 (by decide) (by decide) (by decide) (by decide)
    (by decide) (by decide) (by decide) (by decide) (by decide)

/-! ## The driver poll loops -/

/-- C9 (the code departs from it): the SQL task sleeps, adds the poll time and
checks the timeout after every status query, also after the one that reported
"DONE". With timeout 5 and poll time 10 and a first answer "DONE" it returns the
timeout error and does not evict the instance; with timeout 400 and poll time 10
and "DONE" at the 41st query (40 * 10 <= 400) it returns the timeout error as
well; and when it does succeed ("DONE" at the third query) it has slept three
times and `seconds` is 30, not 20. -/
theorem sql_done_status_times_out :
    instanceDeleteTask ⟨"proj", false, 5, 10⟩ none (runningThenDone 0) "db" 2 ["db"] =
      some ⟨some
          "[Error] Resource deletion timed out for db [type: SQLInstances project: proj] (5 seconds)",
        10, [.delete, .probe, .sleep 10], ["db"]⟩ ∧
    (instanceDeleteTask mainConfig none (runningThenDone 40) "db" 42 ["db"]).map
        (fun run => (run.err, run.seconds, probeCount run.trace, run.cache)) =
      some (some
          "[Error] Resource deletion timed out for db [type: SQLInstances project: proj] (400 seconds)",
        410, 41, ["db"]) ∧
    instanceDeleteTask mainConfig none (runningThenDone 2) "db" 4 ["db"] =
      some ⟨none, 30,
        [.delete, .probe, .sleep 10, .probe, .sleep 10, .probe, .sleep 10], []⟩ := by
  decide

/-- C8 as stated fails: with poll time -1 and timeout -2 and a bucket that is
seen twice and then gone (N = 2, N * p = -2 <= t), the first sleep already
brings `seconds` (-1) above the timeout: the task returns the timeout error after
one probe and leaves the bucket in the cache. -/
theorem bucket_poll_negative_poll_time :
    ((2 : Nat) : Int) * (-1) ≤ -2 ∧
    bucketDeleteTask ⟨"proj", false, -2, -1⟩ none (presentThenAbsent 2) "b" 3 ["a", "b"] =
      some ⟨some ("[Error] Resource deletion timed out for b " ++
          "[type: StorageBuckets project: proj] (-2 seconds)"), -1,
        [.delete, .probe, .sleep (-1)], ["a", "b"]⟩ := by
  decide

/-- C8 (amended): after an accepted delete call, for every N, poll time p >= 0
and timeout t with N * p <= t, if `Buckets.Get` finds the bucket for the first N
probes and fails at the next one, the task returns nil after exactly N + 1
probes and N sleeps of p, with `seconds` = N * p, and the bucket is no longer
in the cache. Any fuel above N is enough. -/
theorem bucket_poll_succeeds (config : Config) (getErr : Nat → GoError) (bucketID : String)
    (cache : Strings) (N fuel : Nat)
    (hp : 0 ≤ config.PollTime) (hN : N * config.PollTime ≤ config.Timeout)
    (hpresent : ∀ k, k < N → getErr k = none) (habsent : getErr N ≠ none)
    (hfuel : N < fuel) :
    ∃ run : TaskRun,
      bucketDeleteTask config none getErr bucketID fuel cache = some run ∧
      run.err = none ∧
      run.seconds = N * config.PollTime ∧
      run.trace = [PollEvent.delete] ++
        (List.replicate N [PollEvent.probe, .sleep config.PollTime]).flatten ++ [.probe] ∧
      probeCount run.trace = N + 1 ∧
      run.cache = cacheDelete cache bucketID ∧
      bucketID ∉ run.cache := by
  refine ⟨⟨none, N * config.PollTime, [PollEvent.delete] ++
      (List.replicate N [PollEvent.probe, .sleep config.PollTime]).flatten ++ [.probe],
    cacheDelete cache bucketID⟩, ?_, rfl, rfl, rfl, ?_, rfl, not_mem_cacheDelete cache bucketID⟩
  · have := bucketPollLoop_present_then_absent config getErr bucketID hp N fuel 0 0 [.delete]
      cache (by simpa using hpresent) (by simpa using habsent) (by simpa using hN) hfuel
    simpa [bucketDeleteTask] using this
  · simp [probeCount, List.count_append, List.count_cons]
    exact probeCount_cycles N config.PollTime

/-- Witness of C8 (amended): timeout 400, poll time 10, the bucket is gone at the
third probe. -/
theorem bucket_poll_succeeds_witness :
    ∃ run : TaskRun,
      bucketDeleteTask mainConfig none (presentThenAbsent 2) "b" 3 ["a", "b"] = some run ∧
      run.err = none ∧
      run.seconds = (2 : Nat) * mainConfig.PollTime ∧
      run.trace = [PollEvent.delete] ++
        (List.replicate 2 [PollEvent.probe, .sleep mainConfig.PollTime]).flatten ++ [.probe] ∧
      probeCount run.trace = 2 + 1 ∧
      run.cache = cacheDelete ["a", "b"] "b" ∧
      "b" ∉ run.cache :=
  bucket_poll_succeeds mainConfig (presentThenAbsent 2) "b" ["a", "b"] 2 3 (by decide)
    (by decide) (by decide) (by decide) (by decide)

end GcpNuke
